import Mathlib

/-!
# Graceful shutdown demo: a shallow embedding of `main.go`

The program is a single `main` function that opens a database handle, installs a
catch-all HTTP handler running a slow query, starts a coordinator goroutine that
waits for an interrupt and calls `server.Shutdown`, and then blocks in
`server.ListenAndServe` followed by a wait on the channel `idleConnsClosed`.

The embedding has two layers.

* The handler closure (lines 41-49) is a function on an explicit response writer
  and an explicit record of the calls made on the database handle.
* `main` together with the coordinator goroutine (lines 25-76) is a labelled
  transition system `step : State → Event → Option State`.  Every statement of the
  source is one transition; the results of library calls (`sql.Open`, `db.Ping`,
  `db.Exec`, `ListenAndServe`, `Shutdown`) and the scheduling of goroutines are the
  labels.  The library operations follow the documented behaviour of `net/http`,
  `os/signal`, `context`, `log` and `fmt`.
-/

namespace GracefulShutdown

/-! ## Constants of the source -/

/-- Line 20: `const port = ":3000"`. -/
def port : String := ":3000"

/-- Line 21: `const username = "root"`. -/
def username : String := "root"

/-- Line 22: `const password = "root"`. -/
def password : String := "root"

/-- Line 23: `const database = "test"`. -/
def database : String := "test"

/-- The value of `http.StatusInternalServerError`. -/
def StatusInternalServerError : Nat := 500

/-- The value of `http.StatusNoContent`. -/
def StatusNoContent : Nat := 204

/-- The value of `http.StatusOK`, the status an unset writer takes on its first write. -/
def StatusOK : Nat := 200

/-- The query text passed to `db.Exec` on line 42. -/
def sleepQuery : String := "select sleep(30);"

/-! ## `fmt` with a format string and no operands

`fmt.Fprintf(w, err.Error())` on line 44 passes the error text as the *format* and no
operands.  The functions below follow `fmt.(*pp).doPrintf` for `len(a) = 0`. -/

namespace Fmt

/-- The flag characters skipped after a `%`. -/
def isFlag (c : Char) : Bool :=
  c == '#' || c == '0' || c == '+' || c == '-' || c == ' '

/-- The loop of `fmt.parsenum` over the text up to its `end`: the number read, whether a
digit was read, and the unread text.  A number that grew beyond `1e6` gives up and jumps
to `end`. -/
def parsenumLoop : Nat → Bool → List Char → Nat × Bool × List Char
  | num, isnum, [] => (num, isnum, [])
  | num, isnum, c :: cs =>
    if c.isDigit then
      if 1000000 < num then (0, false, [])
      else parsenumLoop (num * 10 + (c.toNat - 48)) true cs
    else (num, isnum, c :: cs)

/-- The function `fmt.parsenum` started at the head of the text. -/
def parsenum (s : List Char) : Nat × Bool × List Char :=
  parsenumLoop 0 false s

/-- The function `fmt.parseArgNumber` on text that starts with `[`: how many characters the
bracketed index occupies and whether it is a well-formed number. -/
def parseArgNumber (s : List Char) : Nat × Bool :=
  if s.length < 3 then (1, false)
  else
    match (s.drop 1).findIdx? (fun c => c == ']') with
    | none => (1, false)
    | some j =>
      let r := parsenum ((s.drop 1).take j)
      (j + 2, r.2.1 && r.2.2.isEmpty)

/-- The method `fmt.(*pp).argNumber` with no operands: the unread text, whether a
well-formed index was found, and the `goodArgNum` flag.  With no operands every index is
out of range, so a bracket always clears `goodArgNum`. -/
def argNumber (s : List Char) (good : Bool) : List Char × Bool × Bool :=
  match s with
  | '[' :: _ =>
    let r := parseArgNumber s
    (s.drop r.1, r.2, false)
  | _ => (s, false, good)

/-- The text written for a verb when no operand is left. -/
def verbText (verb : Char) (good : Bool) : List Char :=
  if verb == '%' then ['%']
  else if !good then "%!".toList ++ [verb] ++ "(BADINDEX)".toList
  else "%!".toList ++ [verb] ++ "(MISSING)".toList

/-- One pass of the `formatLoop` of `doPrintf` after a `%` has been consumed: the text
written for this directive and the unread format (`none` when the loop breaks). -/
def directive (s : List Char) : List Char × Option (List Char) :=
  let s1 := s.dropWhile isFlag
  let a1 := argNumber s1 true
  -- width
  let w : List Char × List Char × Bool × Bool :=
    match a1.1 with
    | '*' :: t => ("%!(BADWIDTH)".toList, t, false, a1.2.2)
    | _ =>
      let r := parsenum a1.1
      ([], r.2.2, a1.2.1, a1.2.2 && !(a1.2.1 && r.2.1))
  -- precision
  let p : List Char × List Char × Bool × Bool :=
    match w.2.1 with
    | '.' :: t =>
      let a2 := argNumber t (w.2.2.2 && !w.2.2.1)
      match a2.1 with
      | '*' :: t2 => ("%!(BADPREC)".toList, t2, false, a2.2.2)
      | _ => ([], (parsenum a2.1).2.2, a2.2.1, a2.2.2)
    | _ => ([], w.2.1, w.2.2.1, w.2.2.2)
  let a3 := if p.2.2.1 then (p.2.1, true, p.2.2.2) else argNumber p.2.1 p.2.2.2
  match a3.1 with
  | [] => (w.1 ++ p.1 ++ "%!(NOVERB)".toList, none)
  | verb :: t => (w.1 ++ p.1 ++ verbText verb a3.2.2, some t)

/-- The `formatLoop` of `doPrintf`: literal text is copied up to the next `%`, then one
directive is processed.  Every pass consumes at least the `%`, so `fuel` larger than the
length of the format is never exhausted. -/
def formatLoop : Nat → List Char → List Char
  | 0, _ => []
  | fuel + 1, s =>
    let lit := s.takeWhile (fun c => c != '%')
    match s.dropWhile (fun c => c != '%') with
    | [] => lit
    | _ :: afterPercent =>
      match directive afterPercent with
      | (out, none) => lit ++ out
      | (out, some rest) => lit ++ out ++ formatLoop fuel rest

/-- The text `fmt.Sprintf(format)` produces when called with no operands. -/
def Sprintf (format : String) : String :=
  String.mk (formatLoop (format.length + 1) format.toList)

end Fmt

/-! ## The handler closure (lines 41-49) -/

/-- The part of `*http.Request` a handler can read. -/
structure Request where
  method : String
  path : String
  headers : List (String × String)
  body : String
  deriving DecidableEq, Repr

/-- The `http.ResponseWriter` of one request as `net/http` builds it: the method of the
request it answers, the status line once written, and the body bytes sent to the client
so far. -/
structure ResponseWriter where
  method : String
  status : Option Nat
  body : String
  deriving DecidableEq, Repr

/-- The writer `net/http` hands to the handler for a request with the given method:
nothing has been written yet. -/
def ResponseWriter.fresh (method : String) : ResponseWriter := ⟨method, none, ""⟩

/-- The function `bodyAllowedForStatus` of `net/http`: informational responses, `204 No
Content` and `304 Not Modified` carry no body. -/
def bodyAllowedForStatus (status : Nat) : Bool :=
  !((100 ≤ status && status ≤ 199) || status == 204 || status == 304)

/-- The method `w.WriteHeader(code)`: the first call fixes the status; later calls are
ignored. -/
def ResponseWriter.WriteHeader (w : ResponseWriter) (code : Nat) : ResponseWriter :=
  match w.status with
  | none => { w with status := some code }
  | some _ => w

/-- The method `w.Write(p)`: an unset status becomes `200 OK`; the bytes are sent to the
client unless the status allows no body or the request is a `HEAD` request, for which
`net/http` discards the body. -/
def ResponseWriter.Write (w : ResponseWriter) (p : String) : ResponseWriter :=
  let st := w.status.getD StatusOK
  let w1 := { w with status := some st }
  if bodyAllowedForStatus st && w.method != "HEAD" then { w1 with body := w1.body ++ p }
  else w1

/-- The call `fmt.Fprintf(w, format)` with no operands. -/
def Fprintf (w : ResponseWriter) (format : String) : ResponseWriter :=
  w.Write (Fmt.Sprintf format)

/-- The database handle `db` as the program uses it: the record of the statements it
was asked to execute. -/
structure DB where
  execLog : List String
  deriving DecidableEq, Repr

/-- The call `db.Exec(query)`.  The result is decided by the database server, so it is
an input: `none` is success, `some d` is a failure whose `Error()` text is `d`. -/
def DB.Exec (db : DB) (query : String) (outcome : Option String) : DB × Option String :=
  ({ db with execLog := db.execLog ++ [query] }, outcome)

/-- The handler closure of lines 41-49.  `outcome` is what the database answers to
the one `db.Exec` call. -/
def handler (outcome : Option String) (db : DB) (w : ResponseWriter) (_r : Request) :
    DB × ResponseWriter :=
  match db.Exec sleepQuery outcome with
  | (db1, some err) =>
    let w1 := w.WriteHeader StatusInternalServerError
    let w2 := Fprintf w1 err
    (db1, w2)
  | (db1, none) =>
    (db1, w.WriteHeader StatusNoContent)

/-- The response the client that sent `r` receives: the writer `net/http` built for `r`
after the handler has returned. -/
def respond (outcome : Option String) (r : Request) : ResponseWriter :=
  (handler outcome ⟨[]⟩ (ResponseWriter.fresh r.method) r).2

/-! ## The environment of `main` -/

/-- The errors `server.ListenAndServe` returns: the sentinel `http.ErrServerClosed`, or any
other error (a failure to bind the address), identified by its text. -/
inductive ListenErr where
  | serverClosed
  | other (msg : String)
  deriving DecidableEq, Repr

/-- The method `Error()` of a `ListenErr`. -/
def ListenErr.Error : ListenErr → String
  | .serverClosed => "http: Server closed"
  | .other msg => msg

/-- The errors `server.Shutdown` returns: the error of the context when it expired first,
or the error of closing the listener. -/
inductive ShutdownErr where
  | deadlineExceeded
  | closeListener (msg : String)
  deriving DecidableEq, Repr

/-- The method `Error()` of a `ShutdownErr`. -/
def ShutdownErr.Error : ShutdownErr → String
  | .deadlineExceeded => "context deadline exceeded"
  | .closeListener msg => msg

/-- A `context.Context` as `Shutdown` reads it: the instant at which it expires, if any. -/
structure Context where
  deadline : Option Nat
  deriving DecidableEq, Repr

/-- The value `context.Background()`: it has no deadline and is never done. -/
def Context.Background : Context := ⟨none⟩

/-- Whether `ctx.Done()` is closed at instant `now`. -/
def Context.done (ctx : Context) (now : Nat) : Bool :=
  match ctx.deadline with
  | none => false
  | some d => decide (d ≤ now)

/-- The context passed on line 63: `server.Shutdown(context.Background())`. -/
def shutdownCtx : Context := Context.Background

/-- One round of the polling loop of `(*http.Server).Shutdown`: when no connection is busy
it returns the error of closing the listener; otherwise, when the context is done, it
returns the error of the context; otherwise it keeps waiting (`none`). -/
def shutdownPoll (ctx : Context) (now : Nat) (inflight : Int) (lnerr : Option String) :
    Option (Option ShutdownErr) :=
  if inflight = 0 then some (lnerr.map ShutdownErr.closeListener)
  else if ctx.done now then some (some ShutdownErr.deadlineExceeded)
  else none

/-- A line written by the `log` package; `fatal` marks `log.Fatal`, which exits with
status 1 after printing. -/
structure LogLine where
  text : String
  fatal : Bool
  deriving DecidableEq, Repr

/-- The lifecycle of the `http.Server`. -/
inductive Lifecycle where
  | created
  | listening
  | shuttingDown
  | stopped
  deriving DecidableEq, Repr

/-- Whether the operating-system process is alive. -/
inductive Proc where
  | running
  | exited (code : Nat)
  deriving DecidableEq, Repr

/-- The program counter of `main`: the statement it executes next. -/
inductive MainPc where
  | openDB
  | ping
  | install
  | spawn
  | logListening
  | listen
  | serving
  | listenReturned (e : ListenErr)
  | waitClosed
  | returned
  deriving DecidableEq, Repr

/-- The program counter of the coordinator goroutine of lines 57-67. -/
inductive CoordPc where
  | notStarted
  | notify
  | waitSignal
  | callShutdown
  | inShutdown
  | shutdownReturned (e : Option ShutdownErr)
  | close
  | done
  deriving DecidableEq, Repr

/-- The state of the process. -/
structure State where
  proc : Proc
  main : MainPc
  coord : CoordPc
  /-- The handle returned by `sql.Open`, once opened. -/
  db : Option DB
  /-- Whether lines 41-56 ran: the handler closure, the server value and the channel. -/
  installed : Bool
  /-- Whether `signal.Notify(sigint, os.Interrupt)` is registered. -/
  notify : Bool
  /-- The number of values buffered in `sigint` (capacity 1). -/
  sigint : Nat
  /-- The number of interrupts relayed to the process so far. -/
  signals : Nat
  /-- The number of calls of `server.Shutdown` so far. -/
  shutdownCalls : Nat
  /-- The value the call of `server.Shutdown` returned, once it returned. -/
  shutdownResult : Option (Option ShutdownErr)
  /-- The number of times `close(idleConnsClosed)` ran. -/
  closeCount : Nat
  /-- The number of calls of `server.ListenAndServe` so far. -/
  listenCalls : Nat
  /-- The value `server.ListenAndServe` returned, once it returned. -/
  listenResult : Option ListenErr
  lifecycle : Lifecycle
  /-- The in-flight request count of the server. -/
  inflight : Int
  /-- The requests whose handler has begun and not yet returned. -/
  active : List Request
  /-- The number of handlers begun so far. -/
  begun : Nat
  /-- The responses of the handlers that returned, in order of return. -/
  responses : List ResponseWriter
  clock : Nat
  log : List LogLine
  deriving DecidableEq, Repr

/-- The state in which `main` is entered. -/
def init : State where
  proc := .running
  main := .openDB
  coord := .notStarted
  db := none
  installed := false
  notify := false
  sigint := 0
  signals := 0
  shutdownCalls := 0
  shutdownResult := none
  closeCount := 0
  listenCalls := 0
  listenResult := none
  lifecycle := .created
  inflight := 0
  active := []
  begun := 0
  responses := []
  clock := 0
  log := []

/-- The transitions of the process.  The arguments of an event are the values the
environment supplies: the result of a library call or the request dispatched. -/
inductive Event where
  /-- Lines 32-35: `sql.Open` returns `err`. -/
  | sqlOpen (err : Option String)
  /-- Lines 37-39: `db.Ping` returns `err`. -/
  | dbPing (err : Option String)
  /-- Lines 41-56: the handler closure, the server value, the channel. -/
  | installHandler
  /-- Line 57: `go func() ...`. -/
  | spawnCoordinator
  /-- Line 69: `log.Printf("listening on %s\n", server.Addr)`. -/
  | logListening
  /-- Line 71: `server.ListenAndServe()` is called; binding the address gives `bindErr`. -/
  | listenAndServe (bindErr : Option String)
  /-- Line 71: the blocked `ListenAndServe` returns because `Shutdown` was called. -/
  | listenReturn
  /-- Lines 71-73: the comparison with `http.ErrServerClosed` and the `log.Printf`. -/
  | checkListenErr
  /-- Line 75: `<-idleConnsClosed`, then `main` returns. -/
  | recvClosed
  /-- Lines 58-59: `make(chan os.Signal, 1)` and `signal.Notify`. -/
  | coordNotify
  /-- An interrupt is relayed by `os/signal` to the registered channel: a send that
  does not block, so the interrupt is dropped when the buffer is full.  Interrupts that
  arrive before `signal.Notify` is registered are handled by the runtime, not by the
  program, and are not events of this system. -/
  | interrupt
  /-- Line 60: `<-sigint`. -/
  | coordRecv
  /-- Line 63: `server.Shutdown` is entered. -/
  | coordShutdown
  /-- Line 63: `server.Shutdown` returns; closing the listener gave `lnerr`. -/
  | shutdownReturn (lnerr : Option String)
  /-- Lines 63-65: the test of the error and the `log.Printf`. -/
  | coordCheckErr
  /-- Line 66: `close(idleConnsClosed)`. -/
  | coordClose
  /-- The server accepts a request and its handler begins. -/
  | handlerBegin (r : Request)
  /-- The handler of the `i`-th in-flight request runs to its return; `db.Exec`
  answered `outcome`. -/
  | handlerReturn (i : Nat) (outcome : Option String)
  /-- Time passes. -/
  | tick
  deriving DecidableEq, Repr

/-- The call `log.Printf` with an already formatted text. -/
def logPrintf (s : State) (text : String) : State :=
  { s with log := s.log ++ [⟨text, false⟩] }

/-- The call `log.Fatal(err)`: the text is printed and the process exits with status 1. -/
def logFatal (s : State) (text : String) : State :=
  { s with log := s.log ++ [⟨text, true⟩], proc := .exited 1 }

/-- Whether `Shutdown` has been called on the server (`srv.inShutdown`). -/
def State.inShutdown (s : State) : Bool :=
  s.lifecycle == .shuttingDown || s.lifecycle == .stopped

/-- The transitions of `main` (lines 25-76). -/
def stepMain (s : State) : Event → Option State
  | .sqlOpen err =>
    if s.main = .openDB then
      match err with
      | some e => some (logFatal s e)
      | none => some { s with db := some ⟨[]⟩, main := .ping }
    else none
  | .dbPing err =>
    if s.main = .ping then
      match err with
      | some e => some (logFatal s e)
      | none => some { s with main := .install }
    else none
  | .installHandler =>
    if s.main = .install then some { s with installed := true, main := .spawn } else none
  | .spawnCoordinator =>
    if s.main = .spawn then some { s with coord := .notify, main := .logListening } else none
  | .logListening =>
    if s.main = .logListening then
      some { logPrintf s ("listening on " ++ port) with main := .listen }
    else none
  | .listenAndServe bindErr =>
    if s.main = .listen then
      if s.inShutdown then
        some { s with listenCalls := s.listenCalls + 1,
                      listenResult := some .serverClosed,
                      main := .listenReturned .serverClosed }
      else
        match bindErr with
        | some e =>
          some { s with listenCalls := s.listenCalls + 1,
                        listenResult := some (.other e),
                        main := .listenReturned (.other e) }
        | none =>
          some { s with listenCalls := s.listenCalls + 1,
                        lifecycle := .listening, main := .serving }
    else none
  | .listenReturn =>
    if s.main = .serving ∧ s.inShutdown = true then
      some { s with listenResult := some .serverClosed,
                    main := .listenReturned .serverClosed }
    else none
  | .checkListenErr =>
    match s.main with
    | .listenReturned e =>
      if e ≠ .serverClosed then
        some { logPrintf s ("HTTP server ListenAndServe: " ++ e.Error) with
                 main := .waitClosed }
      else some { s with main := .waitClosed }
    | _ => none
  | .recvClosed =>
    if s.main = .waitClosed ∧ 0 < s.closeCount then
      some { s with main := .returned, proc := .exited 0 }
    else none
  | _ => none

/-- The transitions of the coordinator goroutine (lines 57-67).  `ctx` is the context
handed to `Shutdown`. -/
def stepCoord (ctx : Context) (s : State) : Event → Option State
  | .coordNotify =>
    if s.coord = .notify then some { s with notify := true, coord := .waitSignal } else none
  | .coordRecv =>
    if s.coord = .waitSignal ∧ 0 < s.sigint then
      some { s with sigint := s.sigint - 1, coord := .callShutdown }
    else none
  | .coordShutdown =>
    if s.coord = .callShutdown then
      some { s with shutdownCalls := s.shutdownCalls + 1,
                    lifecycle := .shuttingDown, coord := .inShutdown }
    else none
  | .shutdownReturn lnerr =>
    if s.coord = .inShutdown then
      match shutdownPoll ctx s.clock s.inflight lnerr with
      | some r =>
        some { s with shutdownResult := some r,
                      lifecycle := if s.inflight = 0 then .stopped else s.lifecycle,
                      coord := .shutdownReturned r }
      | none => none
    else none
  | .coordCheckErr =>
    match s.coord with
    | .shutdownReturned (some err) =>
      some { logPrintf s ("HTTP server Shutdown: " ++ err.Error) with coord := .close }
    | .shutdownReturned none => some { s with coord := .close }
    | _ => none
  | .coordClose =>
    if s.coord = .close then
      some { s with closeCount := s.closeCount + 1, coord := .done }
    else none
  | _ => none

/-- The transitions of the environment: signals, requests and time. -/
def stepEnv (s : State) : Event → Option State
  | .interrupt =>
    if s.notify = true then
      some { s with signals := s.signals + 1,
                    sigint := if s.sigint < 1 then s.sigint + 1 else s.sigint }
    else none
  | .handlerBegin r =>
    if s.lifecycle = .listening then
      some { s with inflight := s.inflight + 1, active := s.active ++ [r],
                    begun := s.begun + 1 }
    else none
  | .handlerReturn i outcome =>
    match s.active.get? i, s.db with
    | some r, some db =>
      let res := handler outcome db (ResponseWriter.fresh r.method) r
      some { s with db := some res.1, responses := s.responses ++ [res.2],
                    active := s.active.eraseIdx i, inflight := s.inflight - 1 }
    | _, _ => none
  | .tick => some { s with clock := s.clock + 1 }
  | _ => none

/-- One transition of the process; nothing happens once the process has exited. -/
def step (ctx : Context) (s : State) (e : Event) : Option State :=
  if s.proc = .running then
    match e with
    | .sqlOpen _ | .dbPing _ | .installHandler | .spawnCoordinator | .logListening
    | .listenAndServe _ | .listenReturn | .checkListenErr | .recvClosed => stepMain s e
    | .coordNotify | .coordRecv | .coordShutdown | .shutdownReturn _ | .coordCheckErr
    | .coordClose => stepCoord ctx s e
    | .interrupt | .handlerBegin _ | .handlerReturn _ _ | .tick => stepEnv s e
  else none

/-- The state after a sequence of transitions, when each of them is enabled. -/
def run (ctx : Context) : State → List Event → Option State
  | s, [] => some s
  | s, e :: es =>
    match step ctx s e with
    | some s1 => run ctx s1 es
    | none => none

/-! ## Measures on program counters and the invariants -/

/-- The number of calls of `Shutdown` the coordinator has made when it is at `pc`. -/
def CoordPc.called : CoordPc → Nat
  | .inShutdown | .shutdownReturned _ | .close | .done => 1
  | _ => 0

/-- Whether the call of `Shutdown` has returned when the coordinator is at `pc`. -/
def CoordPc.pastShutdown : CoordPc → Bool
  | .shutdownReturned _ | .close | .done => true
  | _ => false

/-- The position of a program counter of `main` in the text of `main`. -/
def MainPc.rank : MainPc → Nat
  | .openDB => 0
  | .ping => 1
  | .install => 2
  | .spawn => 3
  | .logListening => 4
  | .listen => 5
  | .serving => 6
  | .listenReturned _ => 7
  | .waitClosed => 8
  | .returned => 9

/-- The line `log.Printf("HTTP server ListenAndServe: %v", err)` prints for `msg`. -/
def listenLogLine (msg : String) : LogLine :=
  ⟨"HTTP server ListenAndServe: " ++ msg, false⟩

/-- The line `log.Printf("HTTP server Shutdown: %v", err)` prints for `err`. -/
def shutdownLogLine (err : ShutdownErr) : LogLine :=
  ⟨"HTTP server Shutdown: " ++ err.Error, false⟩

/-- The facts about `main` and the process that hold in every reachable state. -/
structure InvMain (s : State) : Prop where
  started_iff : s.coord ≠ .notStarted ↔ 4 ≤ s.main.rank
  installed_iff : s.installed = true ↔ 3 ≤ s.main.rank
  listen_calls : s.listenCalls = if 6 ≤ s.main.rank then 1 else 0
  db_some : 1 ≤ s.main.rank → s.db.isSome = true
  fatal_exit : s.proc = .exited 1 → s.main.rank ≤ 1 ∧ ∃ t, s.log.getLast? = some ⟨t, true⟩
  exit_codes : ∀ c, s.proc = .exited c → c = 1 ∨ (c = 0 ∧ s.main = .returned)
  returned_exit : s.main = .returned → s.proc = .exited 0
  listen_result : ∀ e, s.main = .listenReturned e → s.listenResult = some e
  listen_none : s.main.rank ≤ 6 → s.listenResult = none

/-- The facts about the coordinator goroutine and the signal channel that hold in every
reachable state. -/
structure InvCoord (s : State) : Prop where
  sig_le : s.sigint ≤ 1
  sig_signals : s.sigint ≤ s.signals
  calls : s.shutdownCalls = s.coord.called
  closes : s.closeCount = if s.coord = .done then 1 else 0
  notify_iff : s.notify = true ↔ (s.coord ≠ .notStarted ∧ s.coord ≠ .notify)
  sig_notify : 0 < s.signals → s.notify = true
  wait_sig : s.coord = .waitSignal → 0 < s.signals → s.sigint = 1
  nosig : s.signals = 0 → s.coord.called = 0 ∧ s.coord ≠ .callShutdown
  returned_done : s.main = .returned → s.coord = .done

/-- The in-flight count is the number of handlers running, and every handler begun has
returned or is running. -/
structure InvCount (s : State) : Prop where
  inflight_eq : s.inflight = s.active.length
  begun_eq : s.begun = s.responses.length + s.active.length

/-- The facts about the server and the call of `Shutdown` that hold in every reachable
state. -/
structure InvServer (ctx : Context) (s : State) : Prop where
  shut_iff : s.inShutdown = true ↔ s.coord.called = 1
  stopped_idle : s.lifecycle = .stopped → s.active = []
  result_none : s.coord.pastShutdown = false → s.shutdownResult = none
  result_at : ∀ r, s.coord = .shutdownReturned r → s.shutdownResult = some r
  result_some : s.coord.pastShutdown = true → s.shutdownResult.isSome = true
  result_ok : ∀ r, s.shutdownResult = some r → r ≠ some .deadlineExceeded →
    s.lifecycle = .stopped
  result_timeout : s.shutdownResult = some (some .deadlineExceeded) →
    ctx.deadline.isSome = true
  listening_main : s.lifecycle = .listening → s.main = .serving
  early_idle : s.main.rank ≤ 5 → s.begun = 0
  bind_idle : ∀ e, s.listenResult = some (.other e) → s.begun = 0

/-- Once `main` is past the test of lines 71-73, a bind failure has been logged. -/
structure InvLog (s : State) : Prop where
  listen_log : 8 ≤ s.main.rank → ∀ e, s.listenResult = some (.other e) →
    listenLogLine e ∈ s.log

/-- The facts that hold in every state the process reaches, whatever context is handed
to `Shutdown`. -/
structure Inv (ctx : Context) (s : State) : Prop where
  main : InvMain s
  coord : InvCoord s
  count : InvCount s
  server : InvServer ctx s
  log : InvLog s

/-! ## Concrete executions -/

/-- A request used in the concrete executions below. -/
def sampleRequest : Request := ⟨"GET", "/", [], ""⟩

/-- A `HEAD` request for the same path. -/
def headRequest : Request := ⟨"HEAD", "/", [], ""⟩

/-- A `POST` request with a body. -/
def postRequest : Request := ⟨"POST", "/orders", [("Content-Type", "text/plain")], "x"⟩

/-- A run in which the database handle cannot be constructed. -/
def openFailureRun : List Event :=
  [.sqlOpen (some "invalid DSN: missing the slash separating the database name")]

/-- A graceful run: one request is in flight when two interrupts arrive; the handler
returns, `Shutdown` returns `nil`, the channel is closed and `main` returns. -/
def gracefulRun : List Event :=
  [.sqlOpen none, .dbPing none, .installHandler, .spawnCoordinator, .logListening,
   .coordNotify, .listenAndServe none, .handlerBegin sampleRequest, .interrupt, .interrupt,
   .coordRecv, .coordShutdown, .listenReturn, .checkListenErr, .tick,
   .handlerReturn 0 none, .shutdownReturn none, .coordCheckErr, .coordClose, .recvClosed]

/-- The text of a bind failure. -/
def bindErrText : String := "listen tcp :3000: bind: address already in use"

/-- A run in which the address cannot be bound, up to the wait on `idleConnsClosed`. -/
def bindFailureRun : List Event :=
  [.sqlOpen none, .dbPing none, .installHandler, .spawnCoordinator, .logListening,
   .coordNotify, .listenAndServe (some bindErrText), .checkListenErr]

/-- The continuation of `bindFailureRun` once an interrupt arrives. -/
def interruptedTail : List Event :=
  [.interrupt, .coordRecv, .coordShutdown, .shutdownReturn none, .coordCheckErr,
   .coordClose, .recvClosed]

/-- A run in which `Shutdown` has been called while one handler is still running, and
time keeps passing. -/
def stuckRun : List Event :=
  [.sqlOpen none, .dbPing none, .installHandler, .spawnCoordinator, .logListening,
   .coordNotify, .listenAndServe none, .handlerBegin sampleRequest, .interrupt,
   .coordRecv, .coordShutdown, .listenReturn, .checkListenErr] ++ List.replicate 40 .tick

/-- A run up to the return of `Shutdown` with an error of closing the listener. -/
def shutdownErrorRun : List Event :=
  [.sqlOpen none, .dbPing none, .installHandler, .spawnCoordinator, .logListening,
   .coordNotify, .listenAndServe none, .interrupt, .coordRecv, .coordShutdown,
   .shutdownReturn (some "close tcp [::]:3000: use of closed network connection")]

/-- A run in which the database cannot be reached. -/
def pingFailureRun : List Event :=
  [.sqlOpen none, .dbPing (some "dial tcp 127.0.0.1:3306: connect: connection refused")]

/-- The handlers in flight all return. -/
def drainEvents (n : Nat) : List Event :=
  List.replicate n (.handlerReturn 0 none)

/-! ## The invariants hold in every reachable state -/

theorem invMain_init : InvMain init := by
  constructor <;> simp [init, MainPc.rank]

set_option maxHeartbeats 4000000 in
theorem invMain_step {ctx : Context} {s s1 : State} {e : Event} (hi : InvMain s)
    (h : step ctx s e = some s1) : InvMain s1 := by
  obtain ⟨b1, b2, b3, b4, b5, b6, b7, b8, b9⟩ := hi
  unfold step at h
  split at h
  · cases e <;> simp only [stepMain, stepCoord, stepEnv, logFatal, logPrintf] at h <;>
      (repeat' (split at h)) <;>
      (try (simp only [Option.some.injEq, reduceCtorEq] at h)) <;>
      (try (subst h))
    all_goals (constructor <;> dsimp only)
    all_goals try assumption
    all_goals (simp_all [MainPc.rank])
  · exact absurd h (by simp)

theorem invCoord_init : InvCoord init := by
  constructor <;> simp [init, CoordPc.called]

set_option maxHeartbeats 4000000 in
theorem invCoord_step {ctx : Context} {s s1 : State} {e : Event} (hm : InvMain s)
    (hi : InvCoord s) (h : step ctx s e = some s1) : InvCoord s1 := by
  obtain ⟨a1, a0, a2, a3, a4, a5, a6, a7, a8⟩ := hi
  have m1 := hm.started_iff
  clear hm
  unfold step at h
  split at h
  · cases e <;> simp only [stepMain, stepCoord, stepEnv, logFatal, logPrintf] at h <;>
      (repeat' (split at h)) <;>
      (try (simp only [Option.some.injEq, reduceCtorEq] at h)) <;>
      (try (subst h))
    all_goals (constructor <;> dsimp only)
    all_goals try assumption
    all_goals try (simp_all [CoordPc.called, MainPc.rank]; done)
    all_goals try (simp_all [CoordPc.called, MainPc.rank]; omega)
    all_goals (intro _; by_contra hc; simp [hc] at a3; omega)
  · exact absurd h (by simp)

theorem invCount_init : InvCount init := by
  constructor <;> simp [init]

theorem length_eraseIdx_of_get? {α : Type} (l : List α) (i : Nat) (a : α)
    (h : l.get? i = some a) : (l.eraseIdx i).length + 1 = l.length := by
  have hi : i < l.length := by
    by_contra hc
    rw [List.get?_eq_none.mpr (by omega)] at h
    exact absurd h (by simp)
  rw [List.length_eraseIdx, if_pos hi]
  omega

set_option maxHeartbeats 4000000 in
theorem invCount_step {ctx : Context} {s s1 : State} {e : Event}
    (hi : InvCount s) (h : step ctx s e = some s1) : InvCount s1 := by
  obtain ⟨c1, c2⟩ := hi
  unfold step at h
  split at h
  · cases e <;> simp only [stepMain, stepCoord, stepEnv, logFatal, logPrintf] at h <;>
      (repeat' (split at h)) <;>
      (try (simp only [Option.some.injEq, reduceCtorEq] at h)) <;>
      (try (subst h))
    all_goals (constructor <;> dsimp only)
    all_goals try assumption
    all_goals try (simp only [List.length_append, List.length_singleton]; push_cast; omega)
    all_goals
      rename_i hget _
      have hl := length_eraseIdx_of_get? _ _ _ hget
      try simp only [List.length_append, List.length_singleton]
      omega
  · exact absurd h (by simp)

theorem invServer_init (ctx : Context) : InvServer ctx init := by
  constructor <;> simp [init, CoordPc.called, CoordPc.pastShutdown, State.inShutdown,
    MainPc.rank]

set_option maxHeartbeats 4000000 in
theorem invServer_step {ctx : Context} {s s1 : State} {e : Event} (hm : InvMain s)
    (hc : InvCount s) (hi : InvServer ctx s) (h : step ctx s e = some s1) :
    InvServer ctx s1 := by
  obtain ⟨c3, c4, c5, c6, c7, c8, c9, c10, c11, c12⟩ := hi
  have m1 := hm.started_iff
  have m2 := hm.listen_none
  have k1 : s.inflight = 0 → s.active = [] := by
    intro h0
    have := hc.inflight_eq
    rw [h0] at this
    exact List.length_eq_zero.mp (by exact_mod_cast this.symm)
  clear hm hc
  unfold step at h
  split at h
  · cases e <;> simp only [stepMain, stepCoord, stepEnv, logFatal, logPrintf] at h <;>
      (repeat' (split at h)) <;>
      (try (simp only [Option.some.injEq, reduceCtorEq] at h)) <;>
      (try (subst h))
    all_goals (constructor <;> dsimp only)
    all_goals try assumption
    all_goals try (simp_all [CoordPc.called, CoordPc.pastShutdown, State.inShutdown,
      MainPc.rank]; done)
    all_goals try (intro r hr hne; have h8 := c8 r hr hne; simp_all [State.inShutdown])
    all_goals try (intro hl; simp_all [State.inShutdown]; done)
    all_goals try (
      rename_i lnerr _ _ _ heq _
      unfold shutdownPoll Context.done at heq
      cases lnerr <;> cases hd : ctx.deadline <;> simp_all
      done)
    all_goals
      rename_i lnerr _ _ _ heq h0
      unfold shutdownPoll at heq
      rw [if_pos h0] at heq
      cases lnerr <;> simp at heq <;> subst heq <;> simp
  · exact absurd h (by simp)

theorem invLog_init : InvLog init := by
  constructor; simp [init, MainPc.rank]

set_option maxHeartbeats 4000000 in
theorem invLog_step {ctx : Context} {s s1 : State} {e : Event} (hm : InvMain s)
    (hi : InvLog s) (h : step ctx s e = some s1) : InvLog s1 := by
  obtain ⟨d1⟩ := hi
  have m1 := hm.listen_result
  have m2 := hm.listen_none
  clear hm
  unfold step at h
  split at h
  · cases e <;> simp only [stepMain, stepCoord, stepEnv, logFatal, logPrintf] at h <;>
      (repeat' (split at h)) <;>
      (try (simp only [Option.some.injEq, reduceCtorEq] at h)) <;>
      (try (subst h))
    all_goals (constructor; dsimp only)
    all_goals try assumption
    all_goals (simp_all [MainPc.rank, listenLogLine, ListenErr.Error])
  · exact absurd h (by simp)

theorem inv_init (ctx : Context) : Inv ctx init :=
  ⟨invMain_init, invCoord_init, invCount_init, invServer_init ctx, invLog_init⟩

theorem inv_step {ctx : Context} {s s1 : State} {e : Event} (hi : Inv ctx s)
    (h : step ctx s e = some s1) : Inv ctx s1 :=
  ⟨invMain_step hi.main h, invCoord_step hi.main hi.coord h, invCount_step hi.count h,
    invServer_step hi.main hi.count hi.server h, invLog_step hi.main hi.log h⟩

theorem run_cons {ctx : Context} {s s2 : State} {e : Event} {es : List Event}
    (h : run ctx s (e :: es) = some s2) :
    ∃ s1, step ctx s e = some s1 ∧ run ctx s1 es = some s2 := by
  unfold run at h
  split at h
  · exact ⟨_, by assumption, h⟩
  · exact absurd h (by simp)

theorem run_append {ctx : Context} {s s1 s2 : State} {es fs : List Event}
    (h1 : run ctx s es = some s1) (h2 : run ctx s1 fs = some s2) :
    run ctx s (es ++ fs) = some s2 := by
  induction es generalizing s with
  | nil =>
    simp only [run, Option.some.injEq] at h1
    subst h1
    simpa using h2
  | cons e es ih =>
    obtain ⟨sm, hs, hr⟩ := run_cons h1
    simp only [List.cons_append, run, hs]
    exact ih hr

theorem run_append_inv {ctx : Context} {s s2 : State} {es fs : List Event}
    (h : run ctx s (es ++ fs) = some s2) :
    ∃ s1, run ctx s es = some s1 ∧ run ctx s1 fs = some s2 := by
  induction es generalizing s with
  | nil => exact ⟨s, rfl, by simpa using h⟩
  | cons e es ih =>
    obtain ⟨sm, hs, hr⟩ := run_cons (by simpa using h)
    obtain ⟨s1, h1, h2⟩ := ih hr
    exact ⟨s1, by simp only [run, hs, h1], h2⟩

theorem inv_run {ctx : Context} {s s1 : State} {es : List Event} (hi : Inv ctx s)
    (h : run ctx s es = some s1) : Inv ctx s1 := by
  induction es generalizing s with
  | nil =>
    simp only [run, Option.some.injEq] at h
    exact h ▸ hi
  | cons e es ih =>
    obtain ⟨sm, hs, hr⟩ := run_cons h
    exact ih (inv_step hi hs) hr

theorem inv_reach {ctx : Context} {s : State} {es : List Event}
    (h : run ctx init es = some s) : Inv ctx s :=
  inv_run (inv_init ctx) h

/-! ## Consequences of the invariants -/

theorem running_of_rank {ctx : Context} {s : State} (hi : Inv ctx s)
    (h2 : 2 ≤ s.main.rank) (h9 : s.main ≠ .returned) : s.proc = .running := by
  cases hp : s.proc with
  | running => rfl
  | exited c =>
    rcases hi.main.exit_codes c hp with h | ⟨_, h⟩
    · subst h
      have := (hi.main.fatal_exit hp).1
      omega
    · exact absurd h h9

theorem coord_done_step {ctx : Context} {s s1 : State} {e : Event} (hi : Inv ctx s)
    (hd : s.coord = .done) (h : step ctx s e = some s1) : s1.coord = .done := by
  have m1 := hi.main.started_iff
  clear hi
  unfold step at h
  split at h
  · cases e <;> simp only [stepMain, stepCoord, stepEnv, logFatal, logPrintf] at h <;>
      (repeat' (split at h)) <;>
      (try (simp only [Option.some.injEq, reduceCtorEq] at h)) <;>
      (try (subst h)) <;> simp_all [MainPc.rank]
  · exact absurd h (by simp)

theorem coord_done_run {ctx : Context} {s s1 : State} {es : List Event} (hi : Inv ctx s)
    (hd : s.coord = .done) (h : run ctx s es = some s1) : s1.coord = .done := by
  induction es generalizing s with
  | nil =>
    simp only [run, Option.some.injEq] at h
    exact h ▸ hd
  | cons e es ih =>
    obtain ⟨sm, hs, hr⟩ := run_cons h
    exact ih (inv_step hi hs) (coord_done_step hi hd hs) hr

theorem closeCount_pos_iff {ctx : Context} {s : State} (hi : Inv ctx s) :
    0 < s.closeCount ↔ s.coord = .done := by
  have := hi.coord.closes
  by_cases hd : s.coord = .done <;> simp [hd] at this ⊢ <;> omega

theorem run_of_exited {ctx : Context} {s s1 : State} {es : List Event}
    (hp : s.proc ≠ .running) (h : run ctx s es = some s1) : es = [] ∧ s1 = s := by
  cases es with
  | nil =>
    simp only [run, Option.some.injEq] at h
    exact ⟨rfl, h.symm⟩
  | cons e es =>
    obtain ⟨sm, hs, _⟩ := run_cons h
    simp [step, hp] at hs

theorem step_fail_fatal {ctx : Context} {s s1 : State} {e : Event} {d : String}
    (he : e = .sqlOpen (some d) ∨ e = .dbPing (some d)) (h : step ctx s e = some s1) :
    s1.proc = .exited 1 ∧ s1.log = s.log ++ [⟨d, true⟩] := by
  unfold step at h
  split at h
  · rcases he with rfl | rfl <;> simp only [stepMain, logFatal] at h <;>
      (repeat' (split at h)) <;>
      (try (simp only [Option.some.injEq, reduceCtorEq] at h)) <;>
      (try (subst h)) <;> simp_all
  · exact absurd h (by simp)

theorem step_fatal_inv {ctx : Context} {s s1 : State} {e : Event}
    (h : step ctx s e = some s1) (hp : s1.proc ≠ .running) :
    s1.proc = .exited 0 ∨
      ∃ d, (e = .sqlOpen (some d) ∨ e = .dbPing (some d)) ∧ s1.log = s.log ++ [⟨d, true⟩] := by
  unfold step at h
  split at h
  · cases e <;> simp only [stepMain, stepCoord, stepEnv, logFatal, logPrintf] at h <;>
      (repeat' (split at h)) <;>
      (try (simp only [Option.some.injEq, reduceCtorEq] at h)) <;>
      (try (subst h)) <;> simp_all
  · exact absurd h (by simp)

theorem run_fatal_last {ctx : Context} {s s1 : State} {es : List Event}
    (h : run ctx s es = some s1) (hp : s.proc = .running) (h1 : s1.proc = .exited 1) :
    ∃ d, s1.log.getLast? = some ⟨d, true⟩ ∧
      (Event.sqlOpen (some d) ∈ es ∨ Event.dbPing (some d) ∈ es) := by
  induction es generalizing s with
  | nil =>
    simp only [run, Option.some.injEq] at h
    subst h
    rw [hp] at h1
    cases h1
  | cons e es ih =>
    obtain ⟨sm, hs, hr⟩ := run_cons h
    by_cases hm : sm.proc = .running
    · obtain ⟨d, hd, hmem⟩ := ih hr hm
      exact ⟨d, hd, hmem.imp (List.mem_cons_of_mem _) (List.mem_cons_of_mem _)⟩
    · obtain ⟨rfl, rfl⟩ := run_of_exited hm hr
      rcases step_fatal_inv hs hm with h0 | ⟨d, he, hl⟩
      · rw [h0] at h1
        cases h1
      · refine ⟨d, by rw [hl]; simp, ?_⟩
        rcases he with rfl | rfl
        · exact Or.inl (List.mem_cons_self _ _)
        · exact Or.inr (List.mem_cons_self _ _)

theorem run_drain (ctx : Context) (n : Nat) (s : State) (hn : s.active.length = n)
    (hp : s.proc = .running) (hdb : s.db.isSome = true) :
    ∃ s1, run ctx s (drainEvents n) = some s1 ∧ s1.active = [] ∧ s1.coord = s.coord ∧
      s1.proc = .running ∧ s1.signals = s.signals := by
  induction n generalizing s with
  | zero =>
    exact ⟨s, rfl, List.length_eq_zero.mp hn, rfl, hp, rfl⟩
  | succ n ih =>
    obtain ⟨db, hdb1⟩ := Option.isSome_iff_exists.mp hdb
    cases hact : s.active with
    | nil => rw [hact] at hn; cases hn
    | cons r rest =>
      have hstep : step ctx s (.handlerReturn 0 none) =
          some { s with db := some (handler none db (ResponseWriter.fresh r.method) r).1,
                        responses := s.responses ++ [(handler none db (ResponseWriter.fresh r.method) r).2],
                        active := rest, inflight := s.inflight - 1 } := by
        simp [step, stepEnv, hp, hact, hdb1]
      have hlen : rest.length = n := by rw [hact] at hn; simpa using hn
      obtain ⟨s1, h1, h2, h3, h4, h5⟩ :=
        ih { s with db := some (handler none db (ResponseWriter.fresh r.method) r).1,
                    responses := s.responses ++ [(handler none db (ResponseWriter.fresh r.method) r).2],
                    active := rest, inflight := s.inflight - 1 } hlen hp rfl
      exact ⟨s1, by simp only [drainEvents, List.replicate_succ, run, hstep]; exact h1,
        h2, h3, h4, h5⟩

theorem finish_from_close (ctx : Context) (s : State) (hp : s.proc = .running)
    (hc : s.coord = .close) :
    ∃ es s1, run ctx s es = some s1 ∧ s1.coord = .done ∧ s1.signals = s.signals :=
  ⟨[.coordClose], { s with closeCount := s.closeCount + 1, coord := .done },
    by simp [run, step, stepCoord, hp, hc], rfl, rfl⟩

theorem finish_from_returned (ctx : Context) (s : State) (r : Option ShutdownErr)
    (hp : s.proc = .running) (hc : s.coord = .shutdownReturned r) :
    ∃ es s1, run ctx s es = some s1 ∧ s1.coord = .done ∧ s1.signals = s.signals := by
  have hex : ∃ sm, step ctx s .coordCheckErr = some sm ∧ sm.proc = .running ∧
      sm.coord = .close ∧ sm.signals = s.signals := by
    cases r with
    | none => exact ⟨{ s with coord := .close }, by simp [step, stepCoord, hp, hc], hp, rfl, rfl⟩
    | some err =>
      exact ⟨{ logPrintf s ("HTTP server Shutdown: " ++ err.Error) with coord := .close },
        by simp [step, stepCoord, hp, hc], hp, rfl, rfl⟩
  obtain ⟨sm, hs, hpm, hcm, hsig⟩ := hex
  obtain ⟨es, s1, hr, hd, hsg⟩ := finish_from_close ctx sm hpm hcm
  exact ⟨.coordCheckErr :: es, s1, by simp only [run, hs]; exact hr, hd, by rw [hsg, hsig]⟩

theorem finish_from_inShutdown {ctx : Context} {s : State} (hi : Inv ctx s)
    (hp : s.proc = .running) (hc : s.coord = .inShutdown) :
    ∃ es s1, run ctx s es = some s1 ∧ s1.coord = .done ∧ s1.signals = s.signals := by
  have hm : 4 ≤ s.main.rank :=
    hi.main.started_iff.mp (by rw [hc]; exact fun h => by cases h)
  obtain ⟨sd, hrd, hact, hcd, hpd, hsd⟩ :=
    run_drain ctx _ s rfl hp (hi.main.db_some (by omega))
  have hid := inv_run hi hrd
  have h0 : sd.inflight = 0 := by rw [hid.count.inflight_eq, hact]; rfl
  have hs : step ctx sd (.shutdownReturn none) =
      some { sd with shutdownResult := some none, lifecycle := .stopped,
                     coord := .shutdownReturned none } := by
    simp [step, stepCoord, hpd, hcd, hc, shutdownPoll, h0]
  obtain ⟨es, s1, hr, hd, hsg⟩ :=
    finish_from_returned ctx { sd with shutdownResult := some none, lifecycle := .stopped,
                                       coord := .shutdownReturned none } none hpd rfl
  refine ⟨drainEvents s.active.length ++ (.shutdownReturn none :: es), s1, ?_, hd, ?_⟩
  · exact run_append hrd (by simp only [run, hs]; exact hr)
  · rw [hsg]; exact hsd

theorem finish_from_callShutdown {ctx : Context} {s : State} (hi : Inv ctx s)
    (hp : s.proc = .running) (hc : s.coord = .callShutdown) :
    ∃ es s1, run ctx s es = some s1 ∧ s1.coord = .done ∧ s1.signals = s.signals := by
  have hs : step ctx s .coordShutdown =
      some { s with shutdownCalls := s.shutdownCalls + 1, lifecycle := .shuttingDown,
                    coord := .inShutdown } := by
    simp [step, stepCoord, hp, hc]
  obtain ⟨es, s1, hr, hd, hsg⟩ := finish_from_inShutdown (inv_step hi hs) hp rfl
  exact ⟨.coordShutdown :: es, s1, by simp only [run, hs]; exact hr, hd, hsg⟩

/-- Once an interrupt has been relayed, the coordinator can run to its end without any
further interrupt. -/
theorem coordinator_can_finish {ctx : Context} {s : State} (hi : Inv ctx s)
    (hsig : 1 ≤ s.signals) :
    ∃ es s1, run ctx s es = some s1 ∧ s1.coord = .done ∧ s1.signals = s.signals := by
  have hnot := hi.coord.notify_iff.mp (hi.coord.sig_notify (by omega))
  by_cases hdone : s.coord = .done
  · exact ⟨[], s, rfl, hdone, rfl⟩
  have hp : s.proc = .running := by
    apply running_of_rank hi
    · have := hi.main.started_iff.mp hnot.1
      omega
    · exact fun hret => hdone (hi.coord.returned_done hret)
  cases hc : s.coord with
  | notStarted => exact absurd hc hnot.1
  | notify => exact absurd hc hnot.2
  | waitSignal =>
    have h1 := hi.coord.wait_sig hc (by omega)
    have hs : step ctx s .coordRecv =
        some { s with sigint := s.sigint - 1, coord := .callShutdown } := by
      simp [step, stepCoord, hp, hc, h1]
    obtain ⟨es, s1, hr, hd, hsg⟩ := finish_from_callShutdown (inv_step hi hs) hp rfl
    exact ⟨.coordRecv :: es, s1, by simp only [run, hs]; exact hr, hd, hsg⟩
  | callShutdown => exact finish_from_callShutdown hi hp hc
  | inShutdown => exact finish_from_inShutdown hi hp hc
  | shutdownReturned r => exact finish_from_returned ctx s r hp hc
  | close => exact finish_from_close ctx s hp hc
  | done => exact absurd hc hdone

theorem formatLoop_no_percent (fuel : Nat) (s : List Char) (h : '%' ∉ s) :
    Fmt.formatLoop (fuel + 1) s = s := by
  have hall : ∀ c ∈ s, (c != '%') = true := by
    intro c hc
    simp only [bne_iff_ne, ne_eq]
    rintro rfl
    exact h hc
  have hd : s.dropWhile (fun c => c != '%') = [] := List.dropWhile_eq_nil_iff.mpr hall
  have ht : s.takeWhile (fun c => c != '%') = s := List.takeWhile_eq_self_iff.mpr hall
  simp only [Fmt.formatLoop, hd, ht]

/-- On success the handler answers `204 No Content` with an empty body; on a failure whose
text has no `%`, a request other than `HEAD` is answered `500` with that text as the
body. -/
theorem respond_plain (r : Request) :
    (respond none r).status = some StatusNoContent ∧ (respond none r).body = "" ∧
    ∀ d : String, '%' ∉ d.toList → r.method ≠ "HEAD" →
      (respond (some d) r).status = some StatusInternalServerError ∧
      (respond (some d) r).body = d := by
  refine ⟨rfl, rfl, ?_⟩
  intro d hd hm
  have hf : Fmt.Sprintf d = d := by
    unfold Fmt.Sprintf
    rw [formatLoop_no_percent _ _ hd]
    rfl
  simp [respond, handler, DB.Exec, Fprintf, ResponseWriter.Write, ResponseWriter.WriteHeader,
    ResponseWriter.fresh, hf, hm, bodyAllowedForStatus, StatusInternalServerError]

/-! ## The specification, claim by claim -/

/-- C1: in every reachable state `Shutdown` has been called at most once and the channel
closed at most once; with no interrupt relayed, neither has happened; when the coordinator
has finished, each has happened exactly once, and this stays so in every continuation,
whatever further interrupts arrive; and once at least one interrupt has been relayed the
coordinator can run to its end, where `Shutdown` has been called exactly once and the
channel closed exactly once. -/
theorem shutdown_and_close_exactly_once (evs : List Event) (s : State)
    (h : run shutdownCtx init evs = some s) :
    s.shutdownCalls ≤ 1 ∧ s.closeCount ≤ 1 ∧
    (s.signals = 0 → s.shutdownCalls = 0 ∧ s.closeCount = 0) ∧
    (s.coord = .done →
      1 ≤ s.signals ∧ s.shutdownCalls = 1 ∧ s.closeCount = 1 ∧
      ∀ fs s1, run shutdownCtx s fs = some s1 → s1.shutdownCalls = 1 ∧ s1.closeCount = 1) ∧
    (1 ≤ s.signals →
      ∃ fs s1, run shutdownCtx s fs = some s1 ∧ s1.signals = s.signals ∧
        s1.coord = .done ∧ s1.shutdownCalls = 1 ∧ s1.closeCount = 1) := by
  have hi := inv_reach h
  have hdone : ∀ t : State, Inv shutdownCtx t → t.coord = .done →
      t.shutdownCalls = 1 ∧ t.closeCount = 1 := by
    intro t ht hd
    exact ⟨by rw [ht.coord.calls, hd]; rfl, by rw [ht.coord.closes, if_pos hd]⟩
  have hcalls : s.shutdownCalls ≤ 1 := by
    rw [hi.coord.calls]
    cases s.coord <;> simp [CoordPc.called]
  have hcloses : s.closeCount ≤ 1 := by
    rw [hi.coord.closes]
    split <;> omega
  refine ⟨hcalls, hcloses, ?_, ?_, ?_⟩
  · intro h0
    have hn := hi.coord.nosig h0
    refine ⟨by rw [hi.coord.calls]; exact hn.1, ?_⟩
    rw [hi.coord.closes, if_neg]
    intro hd
    rw [hd] at hn
    exact absurd hn.1 (by decide)
  · intro hd
    refine ⟨?_, (hdone s hi hd).1, (hdone s hi hd).2, ?_⟩
    · by_contra hs
      have := (hi.coord.nosig (by omega)).1
      rw [hd] at this
      cases this
    · intro fs s1 hr
      exact hdone s1 (inv_run hi hr) (coord_done_run hi hd hr)
  · intro hsig
    obtain ⟨fs, s1, hr, hd, hsg⟩ := coordinator_can_finish hi hsig
    exact ⟨fs, s1, hr, hsg, hd, hdone s1 (inv_run hi hr) hd⟩

theorem shutdown_and_close_exactly_once_witness :
    ∃ s, run shutdownCtx init gracefulRun = some s ∧ s.signals = 2 ∧ s.coord = .done ∧
      s.shutdownCalls = 1 ∧ s.closeCount = 1 :=
  ⟨_, rfl, rfl, rfl,
    ((shutdown_and_close_exactly_once gracefulRun _ rfl).2.2.2.1 rfl).2.1,
    ((shutdown_and_close_exactly_once gracefulRun _ rfl).2.2.2.1 rfl).2.2.1⟩

/-- C2: `main` returns (and the process exits normally) only in states in which the
coordinator has finished: `Shutdown` was called once and has returned, and the channel
is closed.  While `Shutdown` has not been called or has not yet returned, `main` has not
returned. -/
theorem main_returns_only_after_shutdown_returned (evs : List Event) (s : State)
    (h : run shutdownCtx init evs = some s) :
    (s.main = .returned →
      s.coord = .done ∧ s.shutdownCalls = 1 ∧ s.shutdownResult.isSome = true ∧
        s.closeCount = 1) ∧
    (s.proc = .exited 0 → s.main = .returned) ∧
    (s.coord.pastShutdown = false → s.main ≠ .returned ∧ s.proc ≠ .exited 0) := by
  have hi := inv_reach h
  have hret : s.main = .returned →
      s.coord = .done ∧ s.shutdownCalls = 1 ∧ s.shutdownResult.isSome = true ∧
        s.closeCount = 1 := by
    intro hm
    have hd := hi.coord.returned_done hm
    refine ⟨hd, ?_, ?_, ?_⟩
    · rw [hi.coord.calls, hd]; rfl
    · exact hi.server.result_some (by rw [hd]; rfl)
    · rw [hi.coord.closes, if_pos hd]
  have hex : s.proc = .exited 0 → s.main = .returned := by
    intro hp
    rcases hi.main.exit_codes 0 hp with h1 | ⟨_, h1⟩
    · exact absurd h1 (by decide)
    · exact h1
  refine ⟨hret, hex, ?_⟩
  intro hp
  have hnr : s.main ≠ .returned := by
    intro hm
    have hd := (hret hm).1
    rw [hd] at hp
    exact absurd hp (by decide)
  exact ⟨hnr, fun hp0 => hnr (hex hp0)⟩

theorem main_returns_only_after_shutdown_returned_witness :
    ∃ s, run shutdownCtx init gracefulRun = some s ∧ s.main = .returned ∧
      s.coord = .done ∧ s.shutdownCalls = 1 ∧ s.shutdownResult.isSome = true ∧
      s.closeCount = 1 :=
  ⟨_, rfl, rfl, (main_returns_only_after_shutdown_returned gracefulRun _ rfl).1 rfl⟩

/-- C3: in every reachable state, for every context handed to `Shutdown`, the in-flight
count is the number of running handlers (so it is never negative); the server is never
`stopped` while a handler runs; the channel `idleConnsClosed` is closed while a handler
runs only if `Shutdown` returned the deadline error; and when the channel is closed
without that error, every handler that began has returned its response. -/
theorem inflight_zero_before_completion (ctx : Context) (evs : List Event) (s : State)
    (h : run ctx init evs = some s) :
    0 ≤ s.inflight ∧ s.inflight = s.active.length ∧
    (s.lifecycle = .stopped → s.inflight = 0) ∧
    (0 < s.closeCount → 0 < s.inflight →
      s.shutdownResult = some (some .deadlineExceeded)) ∧
    (0 < s.closeCount → s.shutdownResult ≠ some (some .deadlineExceeded) →
      s.inflight = 0 ∧ s.responses.length = s.begun) := by
  have hi := inv_reach h
  have h1 := hi.count.inflight_eq
  have h2 := hi.count.begun_eq
  have hst : s.lifecycle = .stopped → s.inflight = 0 := by
    intro hl
    rw [h1, hi.server.stopped_idle hl]
    rfl
  have hclosed : 0 < s.closeCount → s.shutdownResult ≠ some (some .deadlineExceeded) →
      s.inflight = 0 := by
    intro hc hne
    have hd := (closeCount_pos_iff hi).mp hc
    have hsome := hi.server.result_some (by rw [hd]; rfl)
    obtain ⟨r, hr⟩ := Option.isSome_iff_exists.mp hsome
    have hrne : r ≠ some .deadlineExceeded := by
      intro hr2
      exact hne (by rw [hr, hr2])
    exact hst (hi.server.result_ok r hr hrne)
  refine ⟨by omega, h1, hst, ?_, ?_⟩
  · intro hc hpos
    by_contra hne
    have := hclosed hc hne
    omega
  · intro hc hne
    have h0 := hclosed hc hne
    refine ⟨h0, ?_⟩
    have : s.active.length = 0 := by omega
    omega

theorem inflight_zero_before_completion_witness :
    ∃ s, run shutdownCtx init gracefulRun = some s ∧ 0 < s.closeCount ∧ s.begun = 1 ∧
      s.inflight = 0 ∧ s.responses.length = s.begun :=
  ⟨_, rfl, by decide, rfl,
    (inflight_zero_before_completion shutdownCtx gracefulRun _ rfl).2.2.2.2
      (by decide) (by decide)⟩

/-- C4 (evidence of the defect): for the failure text `disk 100% full` the handler answers
`500`, but the body is `disk 100%!f(MISSING)ull`, not the failure text, because line 44
passes the text to `fmt.Fprintf` as a format string. -/
theorem respond_percent_body_differs :
    (respond (some "disk 100% full") sampleRequest).status = some StatusInternalServerError ∧
    (respond (some "disk 100% full") sampleRequest).body = "disk 100%!f(MISSING)ull" ∧
    (respond (some "disk 100% full") sampleRequest).body ≠ "disk 100% full" := by
  refine ⟨rfl, rfl, by decide⟩

/-- C5: in every reachable state in which `Shutdown` has just returned `e` (`none` for
`nil`, or any error), the channel has not been closed yet; the coordinator then writes
the error to the log when there is one and nothing otherwise, the process keeps running,
and `close(idleConnsClosed)` runs, for the first and, in every continuation, only time. -/
theorem coordinator_logs_and_closes_once (ctx : Context) (evs : List Event) (s : State)
    (e : Option ShutdownErr) (h : run ctx init evs = some s)
    (hc : s.coord = .shutdownReturned e) :
    s.closeCount = 0 ∧
    ∃ s1 s2, step ctx s .coordCheckErr = some s1 ∧ step ctx s1 .coordClose = some s2 ∧
      s1.log = s.log ++ (match e with
        | none => []
        | some err => [shutdownLogLine err]) ∧
      s1.proc = .running ∧ s1.closeCount = 0 ∧
      s2.log = s1.log ∧ s2.proc = .running ∧ s2.closeCount = 1 ∧ s2.coord = .done ∧
      ∀ fs s3, run ctx s2 fs = some s3 → s3.closeCount = 1 := by
  have hi := inv_reach h
  have hm : 4 ≤ s.main.rank := hi.main.started_iff.mp (by rw [hc]; exact fun h => by cases h)
  have hrun : s.proc = .running := by
    apply running_of_rank hi (by omega)
    intro hret
    have := hi.coord.returned_done hret
    rw [hc] at this
    cases this
  have hcl : s.closeCount = 0 := by
    rw [hi.coord.closes, hc]
    rfl
  refine ⟨hcl, ?_⟩
  have key : ∀ s1, step ctx s .coordCheckErr = some s1 → s1.coord = .close →
      s1.proc = .running → s1.closeCount = 0 →
      ∃ s2, step ctx s1 .coordClose = some s2 ∧ s2.log = s1.log ∧ s2.proc = .running ∧
        s2.closeCount = 1 ∧ s2.coord = .done ∧
        ∀ fs s3, run ctx s2 fs = some s3 → s3.closeCount = 1 := by
    intro s1 hs1 hc1 hp1 hcc1
    have hi1 := inv_step hi hs1
    refine ⟨{ s1 with closeCount := s1.closeCount + 1, coord := .done }, ?_, rfl, hp1,
      by simp [hcc1], rfl, ?_⟩
    · simp [step, stepCoord, hp1, hc1]
    · intro fs s3 hr
      have hs2 : step ctx s1 .coordClose =
          some { s1 with closeCount := s1.closeCount + 1, coord := .done } := by
        simp [step, stepCoord, hp1, hc1]
      have hi2 := inv_step hi1 hs2
      have hi3 := inv_run hi2 hr
      have hd3 := coord_done_run hi2 rfl hr
      rw [hi3.coord.closes, if_pos hd3]
  cases e with
  | none =>
    have hs1 : step ctx s .coordCheckErr = some { s with coord := .close } := by
      simp [step, stepCoord, hrun, hc]
    obtain ⟨s2, h2, k1, k2, k3, k4, k5⟩ := key _ hs1 rfl hrun hcl
    exact ⟨_, s2, hs1, h2, by simp, hrun, hcl, k1, k2, k3, k4, k5⟩
  | some err =>
    have hs1 : step ctx s .coordCheckErr =
        some { logPrintf s ("HTTP server Shutdown: " ++ err.Error) with coord := .close } := by
      simp [step, stepCoord, hrun, hc]
    obtain ⟨s2, h2, k1, k2, k3, k4, k5⟩ := key _ hs1 rfl hrun hcl
    exact ⟨_, s2, hs1, h2, rfl, hrun, hcl, k1, k2, k3, k4, k5⟩

theorem coordinator_logs_and_closes_once_witness :
    ∃ s, run shutdownCtx init shutdownErrorRun = some s ∧
      s.coord = .shutdownReturned (some (.closeListener
        "close tcp [::]:3000: use of closed network connection")) ∧
      s.closeCount = 0 ∧
      ∃ s1 s2, step shutdownCtx s .coordCheckErr = some s1 ∧
        step shutdownCtx s1 .coordClose = some s2 ∧
        s1.log = s.log ++ [shutdownLogLine (.closeListener
          "close tcp [::]:3000: use of closed network connection")] ∧
        s1.proc = .running ∧ s1.closeCount = 0 ∧
        s2.log = s1.log ∧ s2.proc = .running ∧ s2.closeCount = 1 ∧ s2.coord = .done ∧
        ∀ fs s3, run shutdownCtx s2 fs = some s3 → s3.closeCount = 1 :=
  ⟨_, rfl, rfl, coordinator_logs_and_closes_once shutdownCtx shutdownErrorRun _ _ rfl rfl⟩

/-- C6 (the claim fails): the context of line 63 has no deadline; with one handler still
running, `Shutdown` is still waiting after 40 units of time and no return of `Shutdown`,
with a timeout or otherwise, is possible. -/
theorem shutdown_has_no_deadline :
    shutdownCtx.deadline = none ∧
    ∃ s, run shutdownCtx init stuckRun = some s ∧ s.clock = 40 ∧ s.inflight = 1 ∧
      s.coord = .inShutdown ∧ s.shutdownResult = none ∧
      step shutdownCtx s (.shutdownReturn none) = none ∧
      shutdownPoll shutdownCtx s.clock s.inflight none = none :=
  ⟨rfl, _, rfl, rfl, rfl, rfl, rfl, rfl, rfl⟩

/-- C6 (amended): with the context of line 63, `Shutdown` never returns the deadline
error; while a handler runs the call cannot return, however much time has passed; when no
handler runs it returns the result of closing the listener and the server is `stopped`;
and once it has returned the in-flight count is 0. -/
theorem shutdown_waits_for_inflight_without_deadline (evs : List Event) (s : State)
    (h : run shutdownCtx init evs = some s) :
    s.shutdownResult ≠ some (some .deadlineExceeded) ∧
    (s.coord = .inShutdown → 0 < s.inflight →
      ∀ lnerr, step shutdownCtx s (.shutdownReturn lnerr) = none) ∧
    (s.coord = .inShutdown → s.inflight = 0 →
      ∀ lnerr, ∃ s1, step shutdownCtx s (.shutdownReturn lnerr) = some s1 ∧
        s1.shutdownResult = some (lnerr.map .closeListener) ∧
        s1.lifecycle = .stopped ∧ s1.coord = .shutdownReturned (lnerr.map .closeListener)) ∧
    (s.shutdownResult.isSome = true → s.inflight = 0) := by
  have hi := inv_reach h
  have hnt : s.shutdownResult ≠ some (some .deadlineExceeded) := by
    intro ht
    have := hi.server.result_timeout ht
    simp [shutdownCtx, Context.Background] at this
  refine ⟨hnt, ?_, ?_, ?_⟩
  · intro hc hpos lnerr
    have hne : s.inflight ≠ 0 := by omega
    simp [step, stepCoord, hc, shutdownPoll, hne, Context.done, shutdownCtx,
      Context.Background]
  · intro hc h0 lnerr
    have hm : 4 ≤ s.main.rank :=
      hi.main.started_iff.mp (by rw [hc]; exact fun h => by cases h)
    have hrun : s.proc = .running := by
      apply running_of_rank hi (by omega)
      intro hret
      have := hi.coord.returned_done hret
      rw [hc] at this
      cases this
    refine ⟨{ s with shutdownResult := some (lnerr.map .closeListener),
                     lifecycle := .stopped,
                     coord := .shutdownReturned (lnerr.map .closeListener) }, ?_, rfl, rfl, rfl⟩
    simp [step, stepCoord, hrun, hc, shutdownPoll, h0]
  · intro hsome
    obtain ⟨r, hr⟩ := Option.isSome_iff_exists.mp hsome
    have hrne : r ≠ some .deadlineExceeded := by
      intro hr2
      exact hnt (by rw [hr, hr2])
    have hl := hi.server.result_ok r hr hrne
    rw [hi.count.inflight_eq, hi.server.stopped_idle hl]
    rfl

theorem shutdown_waits_for_inflight_without_deadline_witness :
    ∃ s, run shutdownCtx init stuckRun = some s ∧
      s.shutdownResult ≠ some (some .deadlineExceeded) ∧
      ∀ lnerr, step shutdownCtx s (.shutdownReturn lnerr) = none :=
  ⟨_, rfl, (shutdown_waits_for_inflight_without_deadline stuckRun _ rfl).1,
    (shutdown_waits_for_inflight_without_deadline stuckRun _ rfl).2.1 rfl (by decide)⟩

/-- C7 (the claim fails): after a bind failure the process is still running, `main` is
blocked on `idleConnsClosed` although no interrupt has arrived, and the failure has been
logged by `log.Printf`; once an interrupt arrives the process ends with status 0. -/
theorem bind_failure_not_fatal :
    (∃ s, run shutdownCtx init bindFailureRun = some s ∧
      s.listenResult = some (.other bindErrText) ∧ s.proc = .running ∧
      s.main = .waitClosed ∧ s.signals = 0 ∧ step shutdownCtx s .recvClosed = none ∧
      s.log = [⟨"listening on :3000", false⟩, listenLogLine bindErrText]) ∧
    (∃ s, run shutdownCtx init (bindFailureRun ++ interruptedTail) = some s ∧
      s.listenResult = some (.other bindErrText) ∧ s.proc = .exited 0) :=
  ⟨⟨_, rfl, rfl, rfl, rfl, rfl, rfl, rfl⟩, ⟨_, rfl, rfl, rfl⟩⟩

/-- C7 (amended): in every reachable state in which `ListenAndServe` has failed to bind
with text `d`, no handler has begun and no response has been sent; the process has not
exited with a failure status; once `main` is past the test of lines 71-73 the failure is
in the log; and if the process has exited, it did so with status 0 after an interrupt
was relayed and the coordinator closed the channel. -/
theorem bind_failure_logged_and_waits (evs : List Event) (s : State) (d : String)
    (h : run shutdownCtx init evs = some s) (hb : s.listenResult = some (.other d)) :
    s.begun = 0 ∧ s.responses = [] ∧ s.active = [] ∧
    s.proc ≠ .exited 1 ∧
    (8 ≤ s.main.rank → listenLogLine d ∈ s.log) ∧
    (∀ c, s.proc = .exited c →
      c = 0 ∧ s.closeCount = 1 ∧ 1 ≤ s.signals ∧ listenLogLine d ∈ s.log) := by
  have hi := inv_reach h
  have hbeg := hi.server.bind_idle d hb
  have hcnt := hi.count.begun_eq
  have hrank : 7 ≤ s.main.rank := by
    by_contra hlt
    have := hi.main.listen_none (by omega)
    rw [this] at hb
    cases hb
  have hne1 : s.proc ≠ .exited 1 := by
    intro hp
    have := (hi.main.fatal_exit hp).1
    omega
  refine ⟨hbeg, ?_, ?_, hne1, fun h8 => hi.log.listen_log h8 d hb, ?_⟩
  · exact List.length_eq_zero.mp (by omega)
  · exact List.length_eq_zero.mp (by omega)
  · intro c hp
    rcases hi.main.exit_codes c hp with h1 | ⟨h0, hret⟩
    · subst h1
      exact absurd hp hne1
    · have hd := hi.coord.returned_done hret
      refine ⟨h0, by rw [hi.coord.closes, if_pos hd], ?_, ?_⟩
      · by_contra hs
        have := (hi.coord.nosig (by omega)).1
        rw [hd] at this
        cases this
      · exact hi.log.listen_log (by rw [hret]; simp [MainPc.rank]) d hb

theorem bind_failure_logged_and_waits_witness :
    ∃ s, run shutdownCtx init (bindFailureRun ++ interruptedTail) = some s ∧
      s.listenResult = some (.other bindErrText) ∧
      s.begun = 0 ∧ s.responses = [] ∧ s.active = [] ∧
      s.proc ≠ .exited 1 ∧
      (8 ≤ s.main.rank → listenLogLine bindErrText ∈ s.log) ∧
      (∀ c, s.proc = .exited c →
        c = 0 ∧ s.closeCount = 1 ∧ 1 ≤ s.signals ∧ listenLogLine bindErrText ∈ s.log) :=
  ⟨_, rfl, rfl,
    bind_failure_logged_and_waits (bindFailureRun ++ interruptedTail) _ bindErrText rfl rfl⟩

/-- C8: in every reachable state in which `ListenAndServe` has returned `e`, the test of
lines 71-73 logs nothing when `e` is `http.ErrServerClosed` and logs `e` otherwise, the
process keeps running, and `main` goes on to wait on `idleConnsClosed`; while it waits it
can proceed exactly when the channel has been closed; and whenever `main` has returned
the coordinator has closed the channel. -/
theorem listen_error_logged_then_main_waits (ctx : Context) (evs : List Event) (s : State)
    (h : run ctx init evs = some s) :
    (∀ e, s.main = .listenReturned e →
      ∃ s1, step ctx s .checkListenErr = some s1 ∧ s1.proc = .running ∧
        s1.main = .waitClosed ∧ s1.closeCount = s.closeCount ∧
        s1.log = s.log ++ (if e = .serverClosed then [] else [listenLogLine e.Error])) ∧
    (s.main = .waitClosed →
      ((step ctx s .recvClosed).isSome = true ↔ 0 < s.closeCount)) ∧
    (s.main = .returned → s.coord = .done ∧ s.closeCount = 1) := by
  have hi := inv_reach h
  refine ⟨?_, ?_, ?_⟩
  · intro e he
    have hrun : s.proc = .running :=
      running_of_rank hi (by rw [he]; simp [MainPc.rank]) (by rw [he]; exact fun h => by cases h)
    by_cases hc : e = .serverClosed
    · refine ⟨{ s with main := .waitClosed }, ?_, hrun, rfl, rfl, by simp [hc]⟩
      simp [step, stepMain, hrun, he, hc]
    · refine ⟨{ logPrintf s ("HTTP server ListenAndServe: " ++ e.Error) with
          main := .waitClosed }, ?_, hrun, rfl, rfl, by simp [hc, logPrintf, listenLogLine]⟩
      simp [step, stepMain, hrun, he, hc]
  · intro hw
    have hrun : s.proc = .running :=
      running_of_rank hi (by rw [hw]; simp [MainPc.rank]) (by rw [hw]; exact fun h => by cases h)
    by_cases hc : 0 < s.closeCount <;> simp [step, stepMain, hrun, hw, hc]
  · intro hr
    have hd := hi.coord.returned_done hr
    exact ⟨hd, by rw [hi.coord.closes, if_pos hd]⟩

theorem listen_error_logged_then_main_waits_witness :
    ∃ s, run shutdownCtx init bindFailureRun = some s ∧ s.main = .waitClosed ∧
      ((step shutdownCtx s .recvClosed).isSome = true ↔ 0 < s.closeCount) :=
  ⟨_, rfl, rfl,
    (listen_error_logged_then_main_waits shutdownCtx bindFailureRun _ rfl).2.1 rfl⟩

/-- C9: in every reachable state in which `main` is about to call `sql.Open`, or about to
call `db.Ping`, an error `d` from that call is a possible step, and it ends the process
with status 1 after printing `d`; a success of that call is a possible step too, after
which the process keeps running.  In every execution, if `sql.Open` or `db.Ping` returned
an error `d`, the process has exited with status 1 and the last line of the log is `d`;
whenever the process has exited with status 1, the handler was never installed, the
coordinator was never started, `ListenAndServe` was never called, and the exit was caused
by such an error, which is the last line of the log; hence when neither call failed the
process has not exited with status 1. -/
theorem startup_failure_is_fatal (ctx : Context) (evs : List Event) (s : State)
    (h : run ctx init evs = some s) :
    (s.proc = .running → s.main = .openDB →
      (∀ d, ∃ s1, step ctx s (.sqlOpen (some d)) = some s1 ∧ s1.proc = .exited 1 ∧
        s1.log = s.log ++ [⟨d, true⟩] ∧ s1.installed = false ∧ s1.coord = .notStarted ∧
        s1.listenCalls = 0) ∧
      ∃ s1, step ctx s (.sqlOpen none) = some s1 ∧ s1.proc = .running ∧ s1.main = .ping ∧
        s1.log = s.log) ∧
    (s.proc = .running → s.main = .ping →
      (∀ d, ∃ s1, step ctx s (.dbPing (some d)) = some s1 ∧ s1.proc = .exited 1 ∧
        s1.log = s.log ++ [⟨d, true⟩] ∧ s1.installed = false ∧ s1.coord = .notStarted ∧
        s1.listenCalls = 0) ∧
      ∃ s1, step ctx s (.dbPing none) = some s1 ∧ s1.proc = .running ∧ s1.main = .install ∧
        s1.log = s.log) ∧
    (∀ d, (Event.sqlOpen (some d) ∈ evs ∨ Event.dbPing (some d) ∈ evs) →
      s.proc = .exited 1 ∧ s.log.getLast? = some ⟨d, true⟩) ∧
    (s.proc = .exited 1 →
      s.installed = false ∧ s.coord = .notStarted ∧ s.listenCalls = 0 ∧
      ∃ d, s.log.getLast? = some ⟨d, true⟩ ∧
        (Event.sqlOpen (some d) ∈ evs ∨ Event.dbPing (some d) ∈ evs)) ∧
    ((∀ d, Event.sqlOpen (some d) ∉ evs ∧ Event.dbPing (some d) ∉ evs) →
      s.proc ≠ .exited 1) := by
  have hi := inv_reach h
  have hsecond : s.proc = .exited 1 →
      ∃ d, s.log.getLast? = some ⟨d, true⟩ ∧
        (Event.sqlOpen (some d) ∈ evs ∨ Event.dbPing (some d) ∈ evs) :=
    fun hp => run_fatal_last h rfl hp
  have hearly : s.main.rank ≤ 1 →
      s.installed = false ∧ s.coord = .notStarted ∧ s.listenCalls = 0 := by
    intro hr
    refine ⟨?_, ?_, ?_⟩
    · by_contra hc
      have := hi.main.installed_iff.mp (by simpa using hc)
      omega
    · by_contra hc
      have := hi.main.started_iff.mp hc
      omega
    · rw [hi.main.listen_calls, if_neg (by omega)]
  refine ⟨?_, ?_, ?_, ?_, ?_⟩
  · intro hp hm
    obtain ⟨e1, e2, e3⟩ := hearly (by rw [hm]; simp [MainPc.rank])
    refine ⟨fun d => ⟨logFatal s d, ?_, rfl, rfl, e1, e2, e3⟩,
      ⟨{ s with db := some ⟨[]⟩, main := .ping }, ?_, hp, rfl, rfl⟩⟩
    · simp [step, stepMain, hp, hm]
    · simp [step, stepMain, hp, hm]
  · intro hp hm
    obtain ⟨e1, e2, e3⟩ := hearly (by rw [hm]; simp [MainPc.rank])
    refine ⟨fun d => ⟨logFatal s d, ?_, rfl, rfl, e1, e2, e3⟩,
      ⟨{ s with main := .install }, ?_, hp, rfl, rfl⟩⟩
    · simp [step, stepMain, hp, hm]
    · simp [step, stepMain, hp, hm]
  · intro d hmem
    have key : ∀ e, (e = Event.sqlOpen (some d) ∨ e = Event.dbPing (some d)) → e ∈ evs →
        s.proc = .exited 1 ∧ s.log.getLast? = some ⟨d, true⟩ := by
      intro e he hin
      obtain ⟨pre, post, rfl⟩ := List.append_of_mem hin
      obtain ⟨s0, _, h0⟩ := run_append_inv h
      obtain ⟨sm, hs, hr⟩ := run_cons h0
      obtain ⟨hp, hl⟩ := step_fail_fatal he hs
      obtain ⟨_, rfl⟩ := run_of_exited (by rw [hp]; exact fun h => by cases h) hr
      exact ⟨hp, by rw [hl]; simp⟩
    rcases hmem with hm | hm
    · exact key _ (Or.inl rfl) hm
    · exact key _ (Or.inr rfl) hm
  · intro hp
    obtain ⟨e1, e2, e3⟩ := hearly (hi.main.fatal_exit hp).1
    exact ⟨e1, e2, e3, hsecond hp⟩
  · intro hnone hp
    obtain ⟨d, _, hmem⟩ := hsecond hp
    rcases hmem with hm | hm
    · exact (hnone d).1 hm
    · exact (hnone d).2 hm

theorem startup_failure_is_fatal_witness :
    (∃ s1, step shutdownCtx init
        (.sqlOpen (some "invalid DSN: missing the slash separating the database name")) =
          some s1 ∧
      s1.proc = .exited 1 ∧
      s1.log = [⟨"invalid DSN: missing the slash separating the database name", true⟩] ∧
      s1.installed = false ∧ s1.coord = .notStarted ∧ s1.listenCalls = 0) ∧
    (∃ s, run shutdownCtx init openFailureRun = some s ∧ s.proc = .exited 1 ∧
      s.log.getLast? =
        some ⟨"invalid DSN: missing the slash separating the database name", true⟩) ∧
    (∃ s, run shutdownCtx init pingFailureRun = some s ∧ s.proc = .exited 1 ∧
      s.log.getLast? =
        some ⟨"dial tcp 127.0.0.1:3306: connect: connection refused", true⟩) :=
  ⟨((startup_failure_is_fatal shutdownCtx [] init rfl).1 rfl rfl).1 _,
    ⟨_, rfl,
      (startup_failure_is_fatal shutdownCtx openFailureRun _ rfl).2.2.1 _
        (Or.inl (List.mem_cons_self _ _))⟩,
    ⟨_, rfl,
      (startup_failure_is_fatal shutdownCtx pingFailureRun _ rfl).2.2.1 _
        (Or.inr (List.mem_cons_of_mem _ (List.mem_cons_self _ _)))⟩⟩

/-- C10 (the claim fails): with the same failing backend outcome, a `GET` request is
answered with the failure text as the body and a `HEAD` request with an empty body, so
the two responses differ. -/
theorem get_and_head_responses_differ :
    (respond (some "boom") sampleRequest).status = some StatusInternalServerError ∧
    (respond (some "boom") headRequest).status = some StatusInternalServerError ∧
    (respond (some "boom") sampleRequest).body = "boom" ∧
    (respond (some "boom") headRequest).body = "" ∧
    (respond (some "boom") sampleRequest).body ≠ (respond (some "boom") headRequest).body :=
  ⟨rfl, rfl, rfl, rfl, by decide⟩

/-- C10 (amended): whatever the request, the handler calls `db.Exec` exactly once (the
record of executed statements grows by the one query of line 42); the status of the
response is the same for any two requests that receive the same backend outcome; their
bodies are the same when both or neither of them is a `HEAD` request; the body is empty
for a `HEAD` request and is otherwise determined by the backend outcome alone. -/
theorem handler_response_depends_on_outcome_and_head (outcome : Option String) (db : DB)
    (r1 r2 : Request) :
    (handler outcome db (ResponseWriter.fresh r1.method) r1).1.execLog =
      db.execLog ++ [sleepQuery] ∧
    (respond outcome r1).status = (respond outcome r2).status ∧
    ((r1.method = "HEAD" ↔ r2.method = "HEAD") →
      (respond outcome r1).body = (respond outcome r2).body) ∧
    (r1.method = "HEAD" → (respond outcome r1).body = "") ∧
    (r1.method ≠ "HEAD" →
      (respond outcome r1).body = match outcome with
        | none => ""
        | some d => Fmt.Sprintf d) := by
  cases outcome with
  | none =>
    simp [handler, DB.Exec, respond, ResponseWriter.WriteHeader, ResponseWriter.fresh]
  | some d =>
    have hbody : ∀ r : Request, (respond (some d) r).body =
        if r.method = "HEAD" then "" else Fmt.Sprintf d := by
      intro r
      by_cases hm : r.method = "HEAD" <;>
        simp [handler, DB.Exec, respond, Fprintf, ResponseWriter.Write,
          ResponseWriter.WriteHeader, ResponseWriter.fresh, bodyAllowedForStatus,
          StatusInternalServerError, hm]
    have hstatus : ∀ r : Request,
        (respond (some d) r).status = some StatusInternalServerError := by
      intro r
      by_cases hm : r.method = "HEAD" <;>
        simp [handler, DB.Exec, respond, Fprintf, ResponseWriter.Write,
          ResponseWriter.WriteHeader, ResponseWriter.fresh, bodyAllowedForStatus,
          StatusInternalServerError, hm]
    refine ⟨by simp [handler, DB.Exec], by rw [hstatus r1, hstatus r2], ?_, ?_, ?_⟩
    · intro hiff
      rw [hbody r1, hbody r2]
      by_cases hm : r1.method = "HEAD"
      · rw [if_pos hm, if_pos (hiff.mp hm)]
      · rw [if_neg hm, if_neg (fun h2 => hm (hiff.mpr h2))]
    · intro hm
      rw [hbody r1, if_pos hm]
    · intro hm
      rw [hbody r1, if_neg hm]

theorem handler_response_depends_on_outcome_and_head_witness :
    (respond (some "boom") sampleRequest).status =
      (respond (some "boom") postRequest).status ∧
    (respond (some "boom") sampleRequest).body = (respond (some "boom") postRequest).body ∧
    (respond (some "boom") headRequest).body = "" :=
  ⟨(handler_response_depends_on_outcome_and_head (some "boom") ⟨[]⟩ sampleRequest
      postRequest).2.1,
    (handler_response_depends_on_outcome_and_head (some "boom") ⟨[]⟩ sampleRequest
      postRequest).2.2.1 (by decide),
    (handler_response_depends_on_outcome_and_head (some "boom") ⟨[]⟩ headRequest
      headRequest).2.2.2.1 rfl⟩

end GracefulShutdown
